import Mathlib

/-!
Verification of the event-lifecycle / staffing / points / notification engine
of the eventhub server (src/supabase/functions/server/index.tsx).

The handlers are embedded shallowly: the persistent key-value store becomes
association lists of string keys, each HTTP handler becomes a pure function
from the store (plus the request payload and the ambient inputs it reads,
such as timestamps or channel configuration) to an updated store together
with the data the handler derives (change lines, recipient lists, delivery
attempts).  Record fields that the server reads through a JavaScript
falsy-guard (for example signedUpStaff via the expression with a default of
the empty array) are modelled as total fields whose default value is the
guard's fallback, which is observationally identical.
-/

namespace EventHub

/-- A level record, as stored under keys with prefix level: .
Field order is a JavaScript number set by the admin UI; minPoints is a
non-negative integer. -/
structure Level where
  id : String
  name : String
  minPoints : Nat
  order : Int
deriving DecidableEq

/-- A staff/user record, as stored under keys with prefix user: .
Only the fields the verified handlers read are modelled. -/
structure Staff where
  id : String
  email : String
  name : String
  telegramChatId : String
  telegramUsername : String
  points : Nat
  level : String
  role : String
  status : String
deriving DecidableEq

/-- An event record, as stored under keys with prefix event: . -/
structure Event where
  id : String
  name : String
  date : String
  time : String
  duration : String
  location : String
  description : String
  notes : String
  points : Nat
  requiredLevel : String
  status : String
  signedUpStaff : List String
  signUpTimestamps : List (String × String)
  confirmedStaff : List String
  pointsAwarded : List String
  hasBeenClosedBefore : Bool
  createdAt : String
deriving DecidableEq

/-- A point-adjustment record, as stored under keys with prefix adjustment: . -/
structure Adjustment where
  id : String
  staffId : String
  points : Nat
  reason : String
  timestamp : String
  adminId : String
  eventId : String
deriving DecidableEq

/-- Errors the handlers can return, classifying the 400/404 responses of the
server: missing request fields are validation errors, unresolved ids are
not-found errors, and wrong-state rejections are precondition errors. -/
inductive ApiError where
  | validation (msg : String)
  | notFound (msg : String)
  | precondition (msg : String)
deriving DecidableEq

instance exceptDecidableEq {ε α : Type} [DecidableEq ε] [DecidableEq α] :
    DecidableEq (Except ε α) := fun x y =>
  match x, y with
  | Except.ok a, Except.ok b =>
    if h : a = b then isTrue (by rw [h])
    else isFalse (fun hh => h (Except.ok.injEq a b ▸ hh))
  | Except.ok a, Except.error f => isFalse (fun hh => Except.noConfusion hh)
  | Except.error e, Except.ok b => isFalse (fun hh => Except.noConfusion hh)
  | Except.error e, Except.error f =>
    if h : e = f then isTrue (by rw [h])
    else isFalse (fun hh => h (Except.error.injEq e f ▸ hh))

/-- The key-value store namespace: a list of key/value pairs, modelling the
kv table consumed through kv.get / kv.set. -/
abbrev KV (α : Type) := List (String × α)

/-- kv.get: the value stored at a key, if any. -/
def kvGet {α : Type} (l : KV α) (k : String) : Option α :=
  (l.find? (fun p => p.1 = k)).map (fun p => p.2)

/-- kv.set: upsert — replace the value at an existing key, otherwise append
a fresh entry at the end. -/
def kvSet {α : Type} : KV α → String → α → KV α
  | [], k, v => [(k, v)]
  | p :: l, k, v => if p.1 = k then (k, v) :: l else p :: kvSet l k v

/-- calculateLevel from index.tsx: with the stored level set, sort the
levels by minPoints in descending order (the stable JavaScript sort with
comparator b.minPoints - a.minPoints, modelled by the stable mergeSort),
return the name of the first level the point total qualifies for; if none
qualifies, re-sort by the order field ascending and return the first name;
with no levels at all, return the empty sentinel. -/
def calculateLevel (levels : List Level) (points : Nat) : String :=
  if levels.isEmpty then ""
  else
    let sortedLevels := levels.mergeSort (fun a b => decide (b.minPoints ≤ a.minPoints))
    match sortedLevels.find? (fun level => decide (level.minPoints ≤ points)) with
    | some level => level.name
    | none =>
      let byOrder := sortedLevels.mergeSort (fun a b => decide (a.order ≤ b.order))
      ((byOrder.head?).map Level.name).getD ""

/-- The two seed levels created by the initialization endpoint. -/
def demoLevels : List Level :=
  [⟨"level-1", "Level 1", 0, 0⟩, ⟨"level-2", "Level 2", 1000, 1⟩]

/-- A level set in which no level has a zero threshold, exercising the
fallback branch of calculateLevel. -/
def highLevels : List Level :=
  [⟨"level-elite", "Elite", 500, 2⟩, ⟨"level-pro", "Pro", 300, 1⟩]

/-- POST /signups handler core (after authentication): staff self-signup.
The comparison of the event's date/time against the current clock is an
external Date-library call and enters as the boolean eventInPast; the
signup timestamp taken from the clock enters as signUpTimestamp.  The
handler checks, in source order: missing event id, unresolved event,
already signed up, past event; it never inspects the event's status. -/
def signupHandler (events : KV Event) (userId eventId : String)
    (eventInPast : Bool) (signUpTimestamp : String) : Except ApiError (KV Event) :=
  if eventId = "" then Except.error (ApiError.validation "Event ID is required")
  else
    match kvGet events ("event:" ++ eventId) with
    | none => Except.error (ApiError.notFound "Event not found")
    | some event =>
      if userId ∈ event.signedUpStaff then
        Except.error (ApiError.precondition "Already signed up for this event")
      else if eventInPast then
        Except.error (ApiError.precondition "Cannot sign up for past events")
      else
        let updatedEvent := { event with
          signedUpStaff := event.signedUpStaff ++ [userId],
          signUpTimestamps := kvSet event.signUpTimestamps userId signUpTimestamp }
        Except.ok (kvSet events ("event:" ++ eventId) updatedEvent)

/-- The store visible after a self-signup request: unchanged when the
handler rejected the request, the handler's result otherwise. -/
def applySignup (events : KV Event) (userId eventId : String)
    (eventInPast : Bool) (signUpTimestamp : String) : KV Event :=
  match signupHandler events userId eventId eventInPast signUpTimestamp with
  | Except.ok events' => events'
  | Except.error _ => events

/-- DELETE /signups/:eventId handler core (after authentication): staff
self cancel-signup.  Removes the caller from signedUpStaff and deletes the
caller's signUpTimestamps entry; there is no membership precondition. -/
def cancelSignupHandler (events : KV Event) (userId eventId : String) :
    Except ApiError (KV Event) :=
  match kvGet events ("event:" ++ eventId) with
  | none => Except.error (ApiError.notFound "Event not found")
  | some event =>
    let updatedEvent := { event with
      signedUpStaff := event.signedUpStaff.filter (fun id => decide (id ≠ userId)),
      signUpTimestamps := event.signUpTimestamps.filter (fun q => decide (q.1 ≠ userId)) }
    Except.ok (kvSet events ("event:" ++ eventId) updatedEvent)

/-- The store visible after a cancel-signup request. -/
def applyCancelSignup (events : KV Event) (userId eventId : String) : KV Event :=
  match cancelSignupHandler events userId eventId with
  | Except.ok events' => events'
  | Except.error _ => events

/-- Result of the close handler: the updated store plus the two recipient
lists the handler computes for the closure notification fan-out. -/
structure CloseResult where
  events : KV Event
  newlySelected : List String
  newlyDeselected : List String
deriving DecidableEq

/-- POST /events/close handler core (after authentication and the admin
check): replaces confirmedStaff with the admin-supplied approved ids, sets
status closed and hasBeenClosedBefore, and computes the selection /
deselection recipient lists as a diff against the previous close when the
event has been closed before, and over everybody on the first close. -/
def closeEventHandler (events : KV Event) (eventId : String)
    (approvedStaffIds : List String) : Except ApiError CloseResult :=
  if eventId = "" then Except.error (ApiError.validation "Event ID is required")
  else
    match kvGet events ("event:" ++ eventId) with
    | none => Except.error (ApiError.notFound "Event not found")
    | some event =>
      let signedUpStaffIds := event.signedUpStaff
      let rejectedStaffIds := signedUpStaffIds.filter (fun id => decide (id ∉ approvedStaffIds))
      let previouslyConfirmedStaff := event.confirmedStaff
      let wasClosedBefore := event.hasBeenClosedBefore
      let updatedEvent := { event with
        confirmedStaff := approvedStaffIds,
        status := "closed",
        hasBeenClosedBefore := true }
      let newlySelected :=
        if wasClosedBefore then
          approvedStaffIds.filter (fun id => decide (id ∉ previouslyConfirmedStaff))
        else approvedStaffIds
      let newlyDeselected :=
        if wasClosedBefore then
          signedUpStaffIds.filter
            (fun id => decide (id ∈ previouslyConfirmedStaff ∧ id ∉ approvedStaffIds))
        else rejectedStaffIds
      Except.ok ⟨kvSet events ("event:" ++ eventId) updatedEvent,
        newlySelected, newlyDeselected⟩

/-- The store visible after a close request. -/
def applyClose (events : KV Event) (eventId : String) (approved : List String) : KV Event :=
  match closeEventHandler events eventId approved with
  | Except.ok r => r.events
  | Except.error _ => events

/-- An event record with every field at its JavaScript-falsy default. -/
def emptyEvent : Event :=
  ⟨"", "", "", "", "", "", "", "", 0, "", "", [], [], [], [], false, ""⟩

/-- Total lookup of an event, defaulting to emptyEvent, used to state
concrete counterexamples without binders. -/
def eventAt (events : KV Event) (k : String) : Event :=
  (kvGet events k).getD emptyEvent

/-- A cancelled, not-yet-started event with an empty signup list, as left
behind by the cancel handler. -/
def cancelledDemoEvent : Event :=
  { emptyEvent with
    id := "e7", name := "Beach Cleanup", date := "2030-05-01", time := "10:00",
    status := "cancelled", points := 100 }

/-- A one-event store holding cancelledDemoEvent. -/
def cancelledDemoEvents : KV Event := [("event:e7", cancelledDemoEvent)]

/-- A previously closed event whose only confirmed staff member A has
already been awarded points. -/
def awardedDemoEvent : Event :=
  { emptyEvent with
    id := "e3", name := "Gala Night", date := "2030-06-01", time := "18:00",
    status := "closed", points := 200,
    signedUpStaff := ["A", "B"],
    confirmedStaff := ["A"],
    pointsAwarded := ["A"],
    hasBeenClosedBefore := true }

/-- A one-event store holding awardedDemoEvent. -/
def awardedDemoEvents : KV Event := [("event:e3", awardedDemoEvent)]

/-- An open event with three signups that has never been closed. -/
def closeDemoEvent : Event :=
  { emptyEvent with
    id := "e5", name := "Street Fair", date := "2030-07-01", time := "09:00",
    status := "open", points := 150,
    signedUpStaff := ["A", "B", "C"] }

/-- A one-event store holding closeDemoEvent. -/
def closeDemoEvents : KV Event := [("event:e5", closeDemoEvent)]

/-- An open event with two signed-up staff members and their timestamps. -/
def signupDemoEvent : Event :=
  { emptyEvent with
    id := "e9", name := "Workshop", date := "2030-08-01", time := "14:00",
    status := "open", points := 50,
    signedUpStaff := ["A", "B"],
    signUpTimestamps := [("A", "t1"), ("B", "t2")] }

/-- A one-event store holding signupDemoEvent. -/
def signupDemoEvents : KV Event := [("event:e9", signupDemoEvent)]

/-- The slice of the persistent store the participation-confirmation
handlers touch: events, users, the level table (read by calculateLevel
through its prefix scan, in stored order) and the adjustment log. -/
structure Store where
  events : KV Event
  users : KV Staff
  levels : List Level
  adjustments : KV Adjustment
deriving DecidableEq

/-- POST /participation/confirm handler core (after authentication and the
admin check): award the event's points to one confirmed staff member.  The
ambient clock values enter as adjustmentId and timestamp, the acting admin
as adminId.  Checks, in source order: missing ids, unresolved event,
unresolved staff, already awarded, not selected. -/
def confirmOne (s : Store) (eventId staffId adjustmentId timestamp adminId : String) :
    Except ApiError Store :=
  if eventId = "" ∨ staffId = "" then
    Except.error (ApiError.validation "Event ID and staff ID are required")
  else
    match kvGet s.events ("event:" ++ eventId) with
    | none => Except.error (ApiError.notFound "Event not found")
    | some event =>
      match kvGet s.users ("user:" ++ staffId) with
      | none => Except.error (ApiError.notFound "Staff member not found")
      | some staff =>
        if staffId ∈ event.pointsAwarded then
          Except.error (ApiError.precondition "Points already awarded to this staff member")
        else if staffId ∉ event.confirmedStaff then
          Except.error (ApiError.precondition "Staff member was not selected for this event")
        else
          let newPoints := staff.points + event.points
          let newLevel := calculateLevel s.levels newPoints
          let updatedStaff := { staff with points := newPoints, level := newLevel }
          let updatedEvent := { event with pointsAwarded := event.pointsAwarded ++ [staffId] }
          let adjustment : Adjustment :=
            ⟨adjustmentId, staffId, event.points, "Completed Event: " ++ event.name,
              timestamp, adminId, eventId⟩
          Except.ok { s with
            users := kvSet s.users ("user:" ++ staffId) updatedStaff
            events := kvSet s.events ("event:" ++ eventId) updatedEvent
            adjustments := kvSet s.adjustments ("adjustment:" ++ adjustmentId) adjustment }

/-- The per-staff loop of the confirm-all handler: each staff member is
read from the store as updated so far, unresolved ids are skipped with a
warning, and for the rest the event's points are awarded, the level is
recomputed, and an adjustment keyed dateNow-staffId is recorded. -/
def awardLoop (eventPoints : Nat) (eventName eventId adminId dateNow timestamp : String) :
    Store → List String → Store
  | s, [] => s
  | s, staffId :: rest =>
    match kvGet s.users ("user:" ++ staffId) with
    | none => awardLoop eventPoints eventName eventId adminId dateNow timestamp s rest
    | some staff =>
      let newPoints := staff.points + eventPoints
      let newLevel := calculateLevel s.levels newPoints
      let updatedStaff := { staff with points := newPoints, level := newLevel }
      let adjustment : Adjustment :=
        ⟨dateNow ++ "-" ++ staffId, staffId, eventPoints,
          "Completed Event: " ++ eventName, timestamp, adminId, eventId⟩
      awardLoop eventPoints eventName eventId adminId dateNow timestamp
        { s with
          users := kvSet s.users ("user:" ++ staffId) updatedStaff
          adjustments :=
            kvSet s.adjustments ("adjustment:" ++ (dateNow ++ "-" ++ staffId)) adjustment }
        rest

/-- POST /participation/confirm-all handler core: award the event's points
to every confirmed staff member not yet in pointsAwarded, then append that
whole batch to the event's pointsAwarded list. -/
def confirmAll (s : Store) (eventId adminId dateNow timestamp : String) :
    Except ApiError Store :=
  if eventId = "" then Except.error (ApiError.validation "Event ID is required")
  else
    match kvGet s.events ("event:" ++ eventId) with
    | none => Except.error (ApiError.notFound "Event not found")
    | some event =>
      let staffToConfirm :=
        event.confirmedStaff.filter (fun id => decide (id ∉ event.pointsAwarded))
      if staffToConfirm.isEmpty then
        Except.error (ApiError.precondition "No staff members awaiting point confirmation")
      else
        let s' := awardLoop event.points event.name eventId adminId dateNow timestamp
          s staffToConfirm
        let updatedEvent := { event with
          pointsAwarded := event.pointsAwarded ++ staffToConfirm }
        Except.ok { s' with events := kvSet s'.events ("event:" ++ eventId) updatedEvent }

/-- A request to one of the two awarding endpoints, with the ambient
values it reads. -/
inductive Op where
  | confirmOne (eventId staffId adjustmentId timestamp adminId : String)
  | confirmAll (eventId adminId dateNow timestamp : String)

/-- The store visible after an awarding request: unchanged when the
handler rejected the request. -/
def applyOp (s : Store) : Op → Store
  | Op.confirmOne eventId staffId adjId ts admin =>
    match confirmOne s eventId staffId adjId ts admin with
    | Except.ok s' => s'
    | Except.error _ => s
  | Op.confirmAll eventId admin dateNow ts =>
    match confirmAll s eventId admin dateNow ts with
    | Except.ok s' => s'
    | Except.error _ => s

/-- Every stored event has duplicate-free pointsAwarded and confirmedStaff
lists (both are declared as sets in the data model). -/
abbrev AwardInv (s : Store) : Prop :=
  ∀ p ∈ s.events, (Event.pointsAwarded p.2).Nodup ∧ (Event.confirmedStaff p.2).Nodup

/-- Every stored event's pointsAwarded list is contained in its
confirmedStaff list. -/
abbrev SubInv (s : Store) : Prop :=
  ∀ p ∈ s.events, ∀ x ∈ Event.pointsAwarded p.2, x ∈ Event.confirmedStaff p.2

/-- Two active staff members used by the concrete stores below. -/
def demoStaffA : Staff :=
  ⟨"A", "alice@company.com", "Alice", "", "", 850, "Level 1", "staff", "active"⟩

def demoStaffB : Staff :=
  ⟨"B", "bob@company.com", "Bob", "12345", "", 950, "Level 1", "staff", "active"⟩

/-- A closed event whose two confirmed staff members have not been
awarded yet. -/
def confirmDemoEvent : Event :=
  { emptyEvent with
    id := "e4", name := "Gala", date := "2030-09-01", time := "18:00",
    status := "closed", points := 200,
    signedUpStaff := ["A", "B"],
    confirmedStaff := ["A", "B"],
    hasBeenClosedBefore := true }

/-- A store ready for awarding: confirmDemoEvent plus the two staff
records and the seed level table. -/
def demoStore : Store :=
  ⟨[("event:e4", confirmDemoEvent)],
   [("user:A", demoStaffA), ("user:B", demoStaffB)],
   demoLevels, []⟩

/-- A store holding awardedDemoEvent (A already awarded) plus both staff
records. -/
def awardedStore : Store :=
  ⟨awardedDemoEvents,
   [("user:A", demoStaffA), ("user:B", demoStaffB)],
   demoLevels, []⟩

/-- JavaScript String.prototype.trim: strip leading and trailing
whitespace (structural model over the character list). -/
def trimString (s : String) : String :=
  String.mk (((s.data.dropWhile Char.isWhitespace).reverse.dropWhile Char.isWhitespace).reverse)

/-- The chat id the notification code uses: telegramChatId with the legacy
telegramUsername as falsy-fallback. -/
def effChatId (st : Staff) : String :=
  if st.telegramChatId = "" then st.telegramUsername else st.telegramChatId

/-- The per-recipient skip check: a staff member is sent a Telegram message
only when the effective chat id is non-empty after trimming. -/
def hasChatId (st : Staff) : Bool :=
  decide (¬ trimString (effChatId st) = "")

/-- An outbound notification channel of the cancel handler. -/
inductive Channel where
  | email
  | telegram
deriving DecidableEq

/-- One observable step of the cancel handler, in execution order: the
status write, one delivery attempt per recipient and channel, and the
final purge of signedUpStaff. -/
inductive CancelStep where
  | setStatusCancelled
  | attempt (channel : Channel) (staffId : String)
  | purgeSignups
deriving DecidableEq

/-- POST /events/:id/cancel handler core (after authentication and the
admin check).  The event's status is set to cancelled and stored; when
signedUpStaff is non-empty, the handler then iterates over the stored
staff records whose id is signed up (participatingStaff): an email send is
attempted for each of them only when the Resend API key is configured, a
Telegram send only when Telegram is connected and the record has a usable
chat id (others are skipped without an attempt); after all attempts,
signedUpStaff is cleared and the event stored again.  The returned trace
lists these steps in execution order. -/
def cancelEventHandler (events : KV Event) (users : KV Staff) (eventId : String)
    (resendConfigured telegramConnected : Bool) :
    Except ApiError (KV Event × List CancelStep) :=
  match kvGet events ("event:" ++ eventId) with
  | none => Except.error (ApiError.notFound "Event not found")
  | some existingEvent =>
    let cancelledEvent := { existingEvent with status := "cancelled" }
    let events1 := kvSet events ("event:" ++ eventId) cancelledEvent
    if cancelledEvent.signedUpStaff.isEmpty then
      Except.ok (events1, [CancelStep.setStatusCancelled])
    else
      let participatingStaff :=
        (users.map (fun p => p.2)).filter
          (fun u => decide (Staff.id u ∈ cancelledEvent.signedUpStaff))
      let emailSteps :=
        if resendConfigured then
          participatingStaff.map (fun st => CancelStep.attempt Channel.email st.id)
        else []
      let telegramSteps :=
        if telegramConnected then
          (participatingStaff.filter hasChatId).map
            (fun st => CancelStep.attempt Channel.telegram st.id)
        else []
      let events2 := kvSet events1 ("event:" ++ eventId)
        { cancelledEvent with signedUpStaff := [] }
      Except.ok (events2,
        CancelStep.setStatusCancelled ::
          (emailSteps ++ telegramSteps ++ [CancelStep.purgeSignups]))

/-- The JSON body of a PUT /events/:id request: any subset of the event's
fields may be supplied; absent fields leave the stored value in place. -/
structure EventPatch where
  id : Option String
  name : Option String
  date : Option String
  time : Option String
  duration : Option String
  location : Option String
  description : Option String
  notes : Option String
  points : Option Nat
  requiredLevel : Option String
  status : Option String
  signedUpStaff : Option (List String)
  signUpTimestamps : Option (List (String × String))
  confirmedStaff : Option (List String)
  pointsAwarded : Option (List String)
  hasBeenClosedBefore : Option Bool
  createdAt : Option String
deriving DecidableEq

/-- The updatedEvent construction of the PUT /events/:id handler: spread
the existing event, spread the payload over it, then force id to the path
parameter and signedUpStaff, confirmedStaff, hasBeenClosedBefore and
createdAt back to the stored values — so payload values for those four
fields (and for id) are ignored. -/
def mergeEvent (existing : Event) (patch : EventPatch) (eventId : String) : Event :=
  { id := eventId
    name := patch.name.getD existing.name
    date := patch.date.getD existing.date
    time := patch.time.getD existing.time
    duration := patch.duration.getD existing.duration
    location := patch.location.getD existing.location
    description := patch.description.getD existing.description
    notes := patch.notes.getD existing.notes
    points := patch.points.getD existing.points
    requiredLevel := patch.requiredLevel.getD existing.requiredLevel
    status := patch.status.getD existing.status
    signedUpStaff := existing.signedUpStaff
    signUpTimestamps := patch.signUpTimestamps.getD existing.signUpTimestamps
    confirmedStaff := existing.confirmedStaff
    pointsAwarded := patch.pointsAwarded.getD existing.pointsAwarded
    hasBeenClosedBefore := existing.hasBeenClosedBefore
    createdAt := existing.createdAt }

/-- One human-readable change line of the update notification, one
constructor per compared field.  The first seven carry the old and new
values rendered in the message; description and notes are reported only as
updated, without echoing their text. -/
inductive ChangeLine where
  | name (oldVal newVal : String)
  | date (oldVal newVal : String)
  | time (oldVal newVal : String)
  | location (oldVal newVal : String)
  | duration (oldVal newVal : String)
  | points (oldVal newVal : Nat)
  | requiredLevel (oldVal newVal : String)
  | descriptionUpdated
  | notesUpdated
deriving DecidableEq

/-- The field diff of the PUT /events/:id handler, in source order: one
change line per compared field whose old and new values differ. -/
def diffChanges (e u : Event) : List ChangeLine :=
  (if e.name ≠ u.name then [ChangeLine.name e.name u.name] else []) ++
  (if e.date ≠ u.date then [ChangeLine.date e.date u.date] else []) ++
  (if e.time ≠ u.time then [ChangeLine.time e.time u.time] else []) ++
  (if e.location ≠ u.location then [ChangeLine.location e.location u.location] else []) ++
  (if e.duration ≠ u.duration then [ChangeLine.duration e.duration u.duration] else []) ++
  (if e.points ≠ u.points then [ChangeLine.points e.points u.points] else []) ++
  (if e.requiredLevel ≠ u.requiredLevel then
    [ChangeLine.requiredLevel e.requiredLevel u.requiredLevel] else []) ++
  (if e.description ≠ u.description then [ChangeLine.descriptionUpdated] else []) ++
  (if e.notes ≠ u.notes then [ChangeLine.notesUpdated] else [])

/-- The update-notification recipient selection: signedUpStaff when the
event is open, confirmedStaff when it is closed, nobody otherwise. -/
def staffToNotify (eventStatus : String) (u : Event) : List String :=
  if eventStatus = "open" then u.signedUpStaff
  else if eventStatus = "closed" then u.confirmedStaff
  else []

/-- Result of the update handler: the updated store, the computed change
lines, and the recipients of the update notification. -/
structure UpdateResult where
  events : KV Event
  changes : List ChangeLine
  recipients : List String
deriving DecidableEq

/-- PUT /events/:id handler core (after authentication and the admin
check): merge and store the updated event, then — unless the effective
status (an empty status falls back to open) is draft — compute the field
diff and, when it is non-empty, the recipients by status.  The handler's
selection-change block (diff of old versus new confirmedStaff) always
computes two empty lists here because confirmedStaff is preserved by the
merge, so it is not part of the result. -/
def updateEventHandler (events : KV Event) (eventId : String) (patch : EventPatch) :
    Except ApiError UpdateResult :=
  match kvGet events ("event:" ++ eventId) with
  | none => Except.error (ApiError.notFound "Event not found")
  | some existingEvent =>
    let updatedEvent := mergeEvent existingEvent patch eventId
    let events' := kvSet events ("event:" ++ eventId) updatedEvent
    let eventStatus := if updatedEvent.status = "" then "open" else updatedEvent.status
    if eventStatus ≠ "draft" then
      let changes := diffChanges existingEvent updatedEvent
      let recipients := if changes.isEmpty then [] else staffToNotify eventStatus updatedEvent
      Except.ok ⟨events', changes, recipients⟩
    else
      Except.ok ⟨events', [], []⟩

/-- The empty patch: a request body that repeats no field. -/
def emptyPatch : EventPatch :=
  ⟨none, none, none, none, none, none, none, none, none, none, none, none, none,
   none, none, none, none⟩

/-- A patch that changes only the location. -/
def locationPatch : EventPatch :=
  { emptyPatch with location := some "New Hall" }

/-- A patch that tries to overwrite the protected fields and some normal
fields at once. -/
def framePatch : EventPatch :=
  { emptyPatch with
    id := some "zzz"
    name := some "Renamed"
    points := some 999
    signedUpStaff := some ["Z"]
    confirmedStaff := some ["Z"]
    hasBeenClosedBefore := some true
    createdAt := some "1999-01-01" }

/-- An open event with one signed-up staff member, used by the cancel
counterexample: its only participant has no Telegram chat id on file. -/
def cancelDemoEvent : Event :=
  { emptyEvent with
    id := "e6", name := "Picnic", date := "2030-10-01", time := "12:00",
    status := "open", points := 80,
    signedUpStaff := ["A"],
    signUpTimestamps := [("A", "t1")] }

/-- A one-event store holding cancelDemoEvent. -/
def cancelDemoEvents : KV Event := [("event:e6", cancelDemoEvent)]

/-- A user table with A (no chat id) and B (chat id 12345). -/
def cancelDemoUsers : KV Staff := [("user:A", demoStaffA), ("user:B", demoStaffB)]

theorem kvGet_kvSet_self {α : Type} (l : KV α) (k : String) (v : α) :
    kvGet (kvSet l k v) k = some v := by
  induction l with
  | nil => simp [kvGet, kvSet]
  | cons a l ih =>
    by_cases hak : a.1 = k
    · simp [kvGet, kvSet, hak]
    · simpa [kvGet, kvSet, hak] using ih

theorem kvGet_kvSet_ne {α : Type} (l : KV α) {k k' : String} (v : α) (h : k' ≠ k) :
    kvGet (kvSet l k v) k' = kvGet l k' := by
  have hk : ¬ (k = k') := fun hh => h (Eq.symm hh)
  induction l with
  | nil => simp [kvGet, kvSet, hk]
  | cons a l ih =>
    by_cases hak : a.1 = k
    · have hak' : ¬ (a.1 = k') := by rw [hak]; exact hk
      simp [kvGet, kvSet, hak, hak', hk]
    · by_cases hak' : a.1 = k'
      · simp [kvGet, kvSet, hak, hak', h]
      · simpa [kvGet, kvSet, hak, hak'] using ih

theorem kvSet_kvSet_self {α : Type} (l : KV α) (k : String) (v w : α) :
    kvSet (kvSet l k v) k w = kvSet l k w := by
  induction l with
  | nil => simp [kvSet]
  | cons a l ih =>
    by_cases hak : a.1 = k
    · simp [kvSet, hak]
    · simp [kvSet, hak, ih]

theorem mem_kvSet {α : Type} {l : KV α} {k : String} {v : α} {x : String × α}
    (hx : x ∈ kvSet l k v) : x ∈ l ∨ x.2 = v := by
  induction l with
  | nil => simp [kvSet] at hx; simp [hx]
  | cons a l ih =>
    by_cases hak : a.1 = k
    · simp only [kvSet, if_pos hak, List.mem_cons] at hx
      rcases hx with hx | hx
      · right; simp [hx]
      · left; simp [hx]
    · simp only [kvSet, if_neg hak, List.mem_cons] at hx
      rcases hx with hx | hx
      · left; simp [hx]
      · rcases ih hx with h1 | h1
        · left; simp [h1]
        · right; exact h1

theorem kvGet_mem {α : Type} {l : KV α} {k : String} {v : α}
    (h : kvGet l k = some v) : ∃ k', (k', v) ∈ l := by
  unfold kvGet at h
  rcases Option.map_eq_some'.mp h with ⟨p, hp, hpv⟩
  exact ⟨p.1, by simpa [← hpv] using List.mem_of_find?_eq_some hp⟩

/-- In a list that is pairwise descending on minPoints, the first element
that a point total qualifies for has the greatest minPoints among all
qualifying elements of the list. -/
theorem find?_qualifying_max {points : Nat} {l : List Level}
    (hs : l.Pairwise (fun a b => b.minPoints ≤ a.minPoints))
    {x : Level} (hx : l.find? (fun lv => decide (lv.minPoints ≤ points)) = some x) :
    ∀ y ∈ l, y.minPoints ≤ points → y.minPoints ≤ x.minPoints := by
  induction l with
  | nil => simp at hx
  | cons a l ih =>
    rcases List.pairwise_cons.mp hs with ⟨ha, hl⟩
    by_cases haq : a.minPoints ≤ points
    · have hxa : x = a := by
        have := hx
        simp only [List.find?_cons, decide_eq_true haq] at this
        exact (Option.some_inj.mp this).symm
      intro y hy _
      rw [hxa]
      rcases List.mem_cons.mp hy with hy | hy
      · rw [hy]
      · exact ha y hy
    · have hx' : l.find? (fun lv => decide (lv.minPoints ≤ points)) = some x := by
        have := hx
        simpa only [List.find?_cons, decide_eq_false haq] using this
      intro y hy hyq
      rcases List.mem_cons.mp hy with hy | hy
      · subst hy; exact absurd hyq haq
      · exact ih hl hx' y hy hyq

theorem transDesc : ∀ a b c : Level,
    decide (b.minPoints ≤ a.minPoints) = true →
    decide (c.minPoints ≤ b.minPoints) = true →
    decide (c.minPoints ≤ a.minPoints) = true := by
  intro a b c hab hbc
  simp only [decide_eq_true_eq] at *
  exact le_trans hbc hab

theorem totalDesc : ∀ a b : Level,
    (decide (b.minPoints ≤ a.minPoints) || decide (a.minPoints ≤ b.minPoints)) = true := by
  intro a b
  rcases Nat.le_total a.minPoints b.minPoints with h | h <;> simp [h]

theorem transOrd : ∀ a b c : Level,
    decide (a.order ≤ b.order) = true →
    decide (b.order ≤ c.order) = true →
    decide (a.order ≤ c.order) = true := by
  intro a b c hab hbc
  simp only [decide_eq_true_eq] at *
  exact le_trans hab hbc

theorem totalOrd : ∀ a b : Level,
    (decide (a.order ≤ b.order) || decide (b.order ≤ a.order)) = true := by
  intro a b
  rcases Int.le_total a.order b.order with h | h <;> simp [h]

/-- C5: for every point total p and level set, calculateLevel returns the
empty sentinel when no levels exist; when at least one level has
minPoints ≤ p it returns the name of a level with the greatest minPoints
among those with minPoints ≤ p (the function is deterministic, so ties are
broken deterministically); and when no level qualifies it returns the name
of a level whose order is least. -/
theorem calculateLevel_spec (levels : List Level) (p : Nat) :
    (levels = [] → calculateLevel levels p = "") ∧
    ((∃ l ∈ levels, l.minPoints ≤ p) →
      ∃ l ∈ levels, calculateLevel levels p = l.name ∧ l.minPoints ≤ p ∧
        ∀ m ∈ levels, m.minPoints ≤ p → m.minPoints ≤ l.minPoints) ∧
    (levels ≠ [] → (∀ l ∈ levels, p < l.minPoints) →
      ∃ l ∈ levels, calculateLevel levels p = l.name ∧ ∀ m ∈ levels, l.order ≤ m.order) := by
  refine ⟨?_, ?_, ?_⟩
  · rintro rfl; simp [calculateLevel]
  · rintro ⟨l0, hl0, hq0⟩
    have hne : levels ≠ [] := by rintro rfl; simp at hl0
    have hempty : levels.isEmpty = false := by
      cases levels with
      | nil => exact absurd rfl hne
      | cons a l => rfl
    have hperm : (levels.mergeSort (fun a b => decide (b.minPoints ≤ a.minPoints))).Perm levels :=
      List.mergeSort_perm levels _
    have hmem : l0 ∈ levels.mergeSort (fun a b => decide (b.minPoints ≤ a.minPoints)) :=
      hperm.mem_iff.mpr hl0
    obtain ⟨x, hfind⟩ : ∃ x,
        (levels.mergeSort (fun a b => decide (b.minPoints ≤ a.minPoints))).find?
          (fun level => decide (level.minPoints ≤ p)) = some x := by
      apply Option.isSome_iff_exists.mp
      rw [List.find?_isSome]
      exact ⟨l0, hmem, by simpa using hq0⟩
    have hcalc : calculateLevel levels p = x.name := by
      simp only [calculateLevel, hempty, Bool.false_eq_true, if_false, hfind]
    have hpair : (levels.mergeSort (fun a b => decide (b.minPoints ≤ a.minPoints))).Pairwise
        (fun a b => b.minPoints ≤ a.minPoints) :=
      (List.sorted_mergeSort transDesc totalDesc levels).imp (fun h => of_decide_eq_true h)
    refine ⟨x, hperm.mem_iff.mp (List.mem_of_find?_eq_some hfind), hcalc,
      by simpa using List.find?_some hfind, ?_⟩
    intro m hm hmq
    exact find?_qualifying_max hpair hfind m (hperm.mem_iff.mpr hm) hmq
  · intro hne hq
    have hempty : levels.isEmpty = false := by
      cases levels with
      | nil => exact absurd rfl hne
      | cons a l => rfl
    have hperm : (levels.mergeSort (fun a b => decide (b.minPoints ≤ a.minPoints))).Perm levels :=
      List.mergeSort_perm levels _
    have hnone :
        (levels.mergeSort (fun a b => decide (b.minPoints ≤ a.minPoints))).find?
          (fun level => decide (level.minPoints ≤ p)) = none := by
      rw [List.find?_eq_none]
      intro x hx
      simpa using Nat.not_le.mpr (hq x (hperm.mem_iff.mp hx))
    have hpermO :
        ((levels.mergeSort (fun a b => decide (b.minPoints ≤ a.minPoints))).mergeSort
          (fun a b => decide (a.order ≤ b.order))).Perm levels :=
      (List.mergeSort_perm _ _).trans hperm
    have hpairO :
        ((levels.mergeSort (fun a b => decide (b.minPoints ≤ a.minPoints))).mergeSort
          (fun a b => decide (a.order ≤ b.order))).Pairwise
          (fun a b => a.order ≤ b.order) :=
      (List.sorted_mergeSort transOrd totalOrd _).imp (fun h => of_decide_eq_true h)
    cases hbo : (levels.mergeSort (fun a b => decide (b.minPoints ≤ a.minPoints))).mergeSort
        (fun a b => decide (a.order ≤ b.order)) with
    | nil =>
      exact absurd (List.Perm.eq_nil (hbo ▸ hpermO).symm) hne
    | cons b t =>
      have hcalc : calculateLevel levels p = b.name := by
        simp only [calculateLevel, hempty, Bool.false_eq_true, if_false, hnone, hbo,
          List.head?_cons, Option.map_some', Option.getD_some]
      have hmemb : b ∈ levels := (hbo ▸ hpermO).mem_iff.mp (List.mem_cons_self b t)
      refine ⟨b, hmemb, hcalc, ?_⟩
      intro m hm
      have hmB : m ∈ b :: t := (hbo ▸ hpermO).mem_iff.mpr hm
      rcases List.mem_cons.mp hmB with hmB | hmB
      · rw [hmB]
      · exact (List.pairwise_cons.mp (hbo ▸ hpairO)).1 m hmB

/-- Witness for C5: on the seeded level table the qualifying branch picks
Level 2 for 1500 points, and on a table with no zero-threshold level the
fallback branch applies when p is below every threshold. -/
theorem calculateLevel_spec_witness :
    ((∃ l ∈ demoLevels, l.minPoints ≤ 1500) ∧
      ∃ l ∈ demoLevels, calculateLevel demoLevels 1500 = l.name ∧ l.minPoints ≤ 1500 ∧
        ∀ m ∈ demoLevels, m.minPoints ≤ 1500 → m.minPoints ≤ l.minPoints) ∧
    ((highLevels ≠ [] ∧ ∀ l ∈ highLevels, 100 < l.minPoints) ∧
      ∃ l ∈ highLevels, calculateLevel highLevels 100 = l.name ∧
        ∀ m ∈ highLevels, l.order ≤ m.order) :=
  ⟨⟨by decide, (calculateLevel_spec demoLevels 1500).2.1 (by decide)⟩,
   ⟨⟨by decide, by decide⟩, (calculateLevel_spec highLevels 100).2.2 (by decide) (by decide)⟩⟩

/-- C7 (amended): on an existing event, a self-signup by an already
signed-up caller and a self-signup for a past event are each rejected with
a precondition error (not a fatal error) that leaves the store unchanged.
The handler performs no status check, so a cancelled event is not one of
the rejected cases (see the counterexample theorem). -/
theorem signup_precondition_spec (events : KV Event) (userId eventId : String)
    (eventInPast : Bool) (ts : String) (event : Event)
    (hev : kvGet events ("event:" ++ eventId) = some event) (hid : eventId ≠ "") :
    (userId ∈ event.signedUpStaff →
      signupHandler events userId eventId eventInPast ts =
        Except.error (ApiError.precondition "Already signed up for this event") ∧
      applySignup events userId eventId eventInPast ts = events) ∧
    (userId ∉ event.signedUpStaff → eventInPast = true →
      signupHandler events userId eventId eventInPast ts =
        Except.error (ApiError.precondition "Cannot sign up for past events") ∧
      applySignup events userId eventId eventInPast ts = events) := by
  constructor
  · intro hmem
    have h1 : signupHandler events userId eventId eventInPast ts =
        Except.error (ApiError.precondition "Already signed up for this event") := by
      simp [signupHandler, hid, hev, hmem]
    exact ⟨h1, by simp [applySignup, h1]⟩
  · intro hmem hpast
    have h1 : signupHandler events userId eventId eventInPast ts =
        Except.error (ApiError.precondition "Cannot sign up for past events") := by
      simp [signupHandler, hid, hev, hmem, hpast]
    exact ⟨h1, by simp [applySignup, h1]⟩

/-- Witness for C7: on the store holding awardedDemoEvent, a duplicate
signup by A and a past-event signup by C are both rejected without
mutating the store. -/
theorem signup_precondition_spec_witness :
    ("A" ∈ awardedDemoEvent.signedUpStaff ∧
      signupHandler awardedDemoEvents "A" "e3" false "t0" =
        Except.error (ApiError.precondition "Already signed up for this event") ∧
      applySignup awardedDemoEvents "A" "e3" false "t0" = awardedDemoEvents) ∧
    ("C" ∉ awardedDemoEvent.signedUpStaff ∧
      signupHandler awardedDemoEvents "C" "e3" true "t0" =
        Except.error (ApiError.precondition "Cannot sign up for past events") ∧
      applySignup awardedDemoEvents "C" "e3" true "t0" = awardedDemoEvents) :=
  ⟨⟨by decide,
    (signup_precondition_spec awardedDemoEvents "A" "e3" false "t0" awardedDemoEvent
      (by decide) (by decide)).1 (by decide)⟩,
   ⟨by decide,
    (signup_precondition_spec awardedDemoEvents "C" "e3" true "t0" awardedDemoEvent
      (by decide) (by decide)).2 (by decide) rfl⟩⟩

/-- Counterexample for C7: the self-signup handler never checks the event
status, so a signup for a cancelled (future, not-yet-joined) event
succeeds and mutates the stored event instead of being rejected. -/
theorem signup_cancelled_not_rejected :
    cancelledDemoEvent.status = "cancelled" ∧
    signupHandler cancelledDemoEvents "staff-1" "e7" false "2030-04-01T00:00:00Z" =
      Except.ok [("event:e7", { cancelledDemoEvent with
        signedUpStaff := ["staff-1"],
        signUpTimestamps := [("staff-1", "2030-04-01T00:00:00Z")] })] ∧
    applySignup cancelledDemoEvents "staff-1" "e7" false "2030-04-01T00:00:00Z" ≠
      cancelledDemoEvents := by decide

/-- C10: cancel-signup on an existing event always succeeds, removing
exactly the caller from signedUpStaff and exactly the caller's entry from
signUpTimestamps, leaving every other event field and every other store
key unchanged, and it is idempotent. -/
theorem cancel_signup_spec (events : KV Event) (userId eventId : String) (event : Event)
    (hev : kvGet events ("event:" ++ eventId) = some event) :
    cancelSignupHandler events userId eventId =
      Except.ok (kvSet events ("event:" ++ eventId)
        { event with
          signedUpStaff := event.signedUpStaff.filter (fun id => decide (id ≠ userId)),
          signUpTimestamps := event.signUpTimestamps.filter (fun q => decide (q.1 ≠ userId)) }) ∧
    (∀ x, x ∈ (eventAt (applyCancelSignup events userId eventId)
        ("event:" ++ eventId)).signedUpStaff ↔ x ∈ event.signedUpStaff ∧ x ≠ userId) ∧
    (∀ q, q ∈ (eventAt (applyCancelSignup events userId eventId)
        ("event:" ++ eventId)).signUpTimestamps ↔
        q ∈ event.signUpTimestamps ∧ q.1 ≠ userId) ∧
    ((eventAt (applyCancelSignup events userId eventId) ("event:" ++ eventId)).status =
        event.status ∧
      (eventAt (applyCancelSignup events userId eventId) ("event:" ++ eventId)).confirmedStaff =
        event.confirmedStaff ∧
      (eventAt (applyCancelSignup events userId eventId) ("event:" ++ eventId)).pointsAwarded =
        event.pointsAwarded) ∧
    (∀ k', k' ≠ "event:" ++ eventId →
      kvGet (applyCancelSignup events userId eventId) k' = kvGet events k') ∧
    applyCancelSignup (applyCancelSignup events userId eventId) userId eventId =
      applyCancelSignup events userId eventId := by
  have h1 : cancelSignupHandler events userId eventId =
      Except.ok (kvSet events ("event:" ++ eventId)
        { event with
          signedUpStaff := event.signedUpStaff.filter (fun id => decide (id ≠ userId)),
          signUpTimestamps := event.signUpTimestamps.filter (fun q => decide (q.1 ≠ userId)) }) := by
    simp [cancelSignupHandler, hev]
  have happly : applyCancelSignup events userId eventId =
      kvSet events ("event:" ++ eventId)
        { event with
          signedUpStaff := event.signedUpStaff.filter (fun id => decide (id ≠ userId)),
          signUpTimestamps := event.signUpTimestamps.filter (fun q => decide (q.1 ≠ userId)) } := by
    simp [applyCancelSignup, h1]
  have hget : eventAt (applyCancelSignup events userId eventId) ("event:" ++ eventId) =
      { event with
        signedUpStaff := event.signedUpStaff.filter (fun id => decide (id ≠ userId)),
        signUpTimestamps := event.signUpTimestamps.filter (fun q => decide (q.1 ≠ userId)) } := by
    rw [happly]
    simp [eventAt, kvGet_kvSet_self]
  refine ⟨h1, ?_, ?_, ?_, ?_, ?_⟩
  · intro x
    rw [hget]
    simp [List.mem_filter]
  · intro q
    rw [hget]
    simp [List.mem_filter]
  · rw [hget]
    exact ⟨rfl, rfl, rfl⟩
  · intro k' hk'
    rw [happly]
    exact kvGet_kvSet_ne events _ hk'
  · rw [happly]
    have hget2 : kvGet (kvSet events ("event:" ++ eventId)
        { event with
          signedUpStaff := event.signedUpStaff.filter (fun id => decide (id ≠ userId)),
          signUpTimestamps := event.signUpTimestamps.filter (fun q => decide (q.1 ≠ userId)) })
        ("event:" ++ eventId) = some
        { event with
          signedUpStaff := event.signedUpStaff.filter (fun id => decide (id ≠ userId)),
          signUpTimestamps := event.signUpTimestamps.filter (fun q => decide (q.1 ≠ userId)) } :=
      kvGet_kvSet_self _ _ _
    have hfilt1 : (event.signedUpStaff.filter (fun id => decide (id ≠ userId))).filter
        (fun id => decide (id ≠ userId)) =
        event.signedUpStaff.filter (fun id => decide (id ≠ userId)) := by
      rw [List.filter_filter]
      apply List.filter_congr
      intro a _
      simp
    have hfilt2 : (event.signUpTimestamps.filter (fun q => decide (q.1 ≠ userId))).filter
        (fun q => decide (q.1 ≠ userId)) =
        event.signUpTimestamps.filter (fun q => decide (q.1 ≠ userId)) := by
      rw [List.filter_filter]
      apply List.filter_congr
      intro a _
      simp
    simp only [applyCancelSignup, cancelSignupHandler, hget2, hfilt1, hfilt2]
    rw [kvSet_kvSet_self]

/-- Witness for C10: cancelling A's signup on the demo store removes A
and A's timestamp, and doing it twice equals doing it once. -/
theorem cancel_signup_spec_witness :
    cancelSignupHandler signupDemoEvents "A" "e9" =
      Except.ok (kvSet signupDemoEvents "event:e9"
        { signupDemoEvent with
          signedUpStaff := signupDemoEvent.signedUpStaff.filter (fun id => decide (id ≠ "A")),
          signUpTimestamps :=
            signupDemoEvent.signUpTimestamps.filter (fun q => decide (q.1 ≠ "A")) }) ∧
    applyCancelSignup (applyCancelSignup signupDemoEvents "A" "e9") "A" "e9" =
      applyCancelSignup signupDemoEvents "A" "e9" := by
  have h := cancel_signup_spec signupDemoEvents "A" "e9" signupDemoEvent (by decide)
  exact ⟨h.1, h.2.2.2.2.2⟩

/-- C1: when closing an existing event with approved list A over signed-up
set S and previous confirmed set P, the computed recipient sets are, after
a previous close, exactly A minus P (newly selected) and S intersect P
minus A (newly deselected), and on a first close exactly A and S minus A;
consequently a staff member whose confirmed-membership is unchanged
between two closes is in neither recipient list of the second close. -/
theorem close_notification_diff (events : KV Event) (eventId : String)
    (approved : List String) (event : Event)
    (hid : eventId ≠ "") (hev : kvGet events ("event:" ++ eventId) = some event) :
    ∃ r, closeEventHandler events eventId approved = Except.ok r ∧
      (event.hasBeenClosedBefore = true →
        ∀ x, (x ∈ r.newlySelected ↔ x ∈ approved ∧ x ∉ event.confirmedStaff) ∧
          (x ∈ r.newlyDeselected ↔
            x ∈ event.signedUpStaff ∧ x ∈ event.confirmedStaff ∧ x ∉ approved)) ∧
      (event.hasBeenClosedBefore = false →
        r.newlySelected = approved ∧
        ∀ x, x ∈ r.newlyDeselected ↔ x ∈ event.signedUpStaff ∧ x ∉ approved) ∧
      (∀ approved2 r2, closeEventHandler r.events eventId approved2 = Except.ok r2 →
        ∀ x, (x ∈ approved2 ↔ x ∈ approved) →
          x ∉ r2.newlySelected ∧ x ∉ r2.newlyDeselected) := by
  have hrun : closeEventHandler events eventId approved = Except.ok
      ⟨kvSet events ("event:" ++ eventId)
        { event with
            confirmedStaff := approved
            status := "closed"
            hasBeenClosedBefore := true },
       if event.hasBeenClosedBefore then
         approved.filter (fun id => decide (id ∉ event.confirmedStaff))
       else approved,
       if event.hasBeenClosedBefore then
         event.signedUpStaff.filter
           (fun id => decide (id ∈ event.confirmedStaff ∧ id ∉ approved))
       else event.signedUpStaff.filter (fun id => decide (id ∉ approved))⟩ := by
    simp [closeEventHandler, hid, hev]
  refine ⟨_, hrun, ?_, ?_, ?_⟩
  · intro hbefore x
    simp [hbefore, List.mem_filter]
  · intro hbefore
    simp [hbefore, List.mem_filter]
  · intro approved2 r2 h2 x hx
    have hget2 : kvGet (kvSet events ("event:" ++ eventId)
        { event with
            confirmedStaff := approved
            status := "closed"
            hasBeenClosedBefore := true }) ("event:" ++ eventId) = some
        { event with
            confirmedStaff := approved
            status := "closed"
            hasBeenClosedBefore := true } := kvGet_kvSet_self _ _ _
    have hrun2 : closeEventHandler (kvSet events ("event:" ++ eventId)
        { event with
            confirmedStaff := approved
            status := "closed"
            hasBeenClosedBefore := true }) eventId approved2 = Except.ok
        ⟨kvSet (kvSet events ("event:" ++ eventId)
          { event with
              confirmedStaff := approved
              status := "closed"
              hasBeenClosedBefore := true }) ("event:" ++ eventId)
          { event with
            confirmedStaff := approved2
            status := "closed"
            hasBeenClosedBefore := true },
         approved2.filter (fun id => decide (id ∉ approved)),
         event.signedUpStaff.filter
           (fun id => decide (id ∈ approved ∧ id ∉ approved2))⟩ := by
      simp [closeEventHandler, hid, hget2]
    rw [hrun2] at h2
    have hr2 : r2 = ⟨kvSet (kvSet events ("event:" ++ eventId)
          { event with
              confirmedStaff := approved
              status := "closed"
              hasBeenClosedBefore := true }) ("event:" ++ eventId)
          { event with
            confirmedStaff := approved2
            status := "closed"
            hasBeenClosedBefore := true },
         approved2.filter (fun id => decide (id ∉ approved)),
         event.signedUpStaff.filter
           (fun id => decide (id ∈ approved ∧ id ∉ approved2))⟩ :=
      (Except.ok.injEq _ _ ▸ h2).symm
    rw [hr2]
    constructor
    · intro hmem
      rcases List.mem_filter.mp hmem with ⟨hmA2, hnA⟩
      exact of_decide_eq_true hnA (hx.mp hmA2)
    · intro hmem
      rcases List.mem_filter.mp hmem with ⟨hmS, hprop⟩
      rcases of_decide_eq_true hprop with ⟨hinA, hninA2⟩
      exact hninA2 (hx.mpr hinA)

/-- Witness for C1: closing the demo event the first time with approved
list A, B over signups A, B, C notifies exactly A, B as selected and
exactly C as deselected, and an identical re-close notifies nobody. -/
theorem close_notification_diff_witness :
    ∃ r, closeEventHandler closeDemoEvents "e5" ["A", "B"] = Except.ok r ∧
      (closeDemoEvent.hasBeenClosedBefore = true →
        ∀ x, (x ∈ r.newlySelected ↔ x ∈ ["A", "B"] ∧ x ∉ closeDemoEvent.confirmedStaff) ∧
          (x ∈ r.newlyDeselected ↔
            x ∈ closeDemoEvent.signedUpStaff ∧ x ∈ closeDemoEvent.confirmedStaff ∧
            x ∉ ["A", "B"])) ∧
      (closeDemoEvent.hasBeenClosedBefore = false →
        r.newlySelected = ["A", "B"] ∧
        ∀ x, x ∈ r.newlyDeselected ↔ x ∈ closeDemoEvent.signedUpStaff ∧ x ∉ ["A", "B"]) ∧
      (∀ approved2 r2, closeEventHandler r.events "e5" approved2 = Except.ok r2 →
        ∀ x, (x ∈ approved2 ↔ x ∈ ["A", "B"]) →
          x ∉ r2.newlySelected ∧ x ∉ r2.newlyDeselected) :=
  close_notification_diff closeDemoEvents "e5" ["A", "B"] closeDemoEvent
    (by decide) (by decide)

/-- Counterexample for C3: re-closing the already-closed demo event with a
different approved list leaves A in pointsAwarded while removing A from
confirmedStaff, so pointsAwarded is no longer a subset of confirmedStaff. -/
theorem award_subset_close_counterexample :
    awardedDemoEvent.pointsAwarded = ["A"] ∧
    awardedDemoEvent.confirmedStaff = ["A"] ∧
    "A" ∈ (eventAt (applyClose awardedDemoEvents "e3" ["B"]) "event:e3").pointsAwarded ∧
    "A" ∉ (eventAt (applyClose awardedDemoEvents "e3" ["B"]) "event:e3").confirmedStaff := by
  decide

theorem awardLoop_events (eventPoints : Nat) (en eid adm dn ts : String)
    (s : Store) (ids : List String) :
    (awardLoop eventPoints en eid adm dn ts s ids).events = s.events := by
  induction ids generalizing s with
  | nil => rfl
  | cons i rest ih =>
    cases hku : kvGet s.users ("user:" ++ i) with
    | none => simp [awardLoop, hku, ih]
    | some staff => simp [awardLoop, hku, ih]

theorem applyOp_awardInv {s : Store} (hs : AwardInv s) (op : Op) :
    AwardInv (applyOp s op) := by
  cases op with
  | confirmOne eventId staffId adjId ts admin =>
    by_cases hid : eventId = "" ∨ staffId = ""
    · simpa [applyOp, confirmOne, hid] using hs
    · cases hkv : kvGet s.events ("event:" ++ eventId) with
      | none => simpa [applyOp, confirmOne, hid, hkv] using hs
      | some event =>
        cases hku : kvGet s.users ("user:" ++ staffId) with
        | none => simpa [applyOp, confirmOne, hid, hkv, hku] using hs
        | some staff =>
          by_cases hpa : staffId ∈ event.pointsAwarded
          · simpa [applyOp, confirmOne, hid, hkv, hku, hpa] using hs
          · by_cases hcs : staffId ∈ event.confirmedStaff
            · simp only [applyOp, confirmOne, hid, hkv, hku, hpa, hcs]
              simp only [AwardInv]
              intro p hp
              simp only [if_neg hid, not_true_eq_false, if_false, not_false_eq_true,
                if_true] at hp
              rcases mem_kvSet hp with hp' | hp'
              · exact hs p hp'
              · obtain ⟨k', hk'⟩ := kvGet_mem hkv
                have hev := hs (k', event) hk'
                rw [hp']
                refine ⟨?_, hev.2⟩
                rw [List.nodup_append]
                exact ⟨hev.1, List.nodup_singleton _, by simpa using hpa⟩
            · simpa [applyOp, confirmOne, hid, hkv, hku, hpa, hcs] using hs
  | confirmAll eventId admin dateNow ts =>
    by_cases hid : eventId = ""
    · simpa [applyOp, confirmAll, hid] using hs
    · cases hkv : kvGet s.events ("event:" ++ eventId) with
      | none => simpa [applyOp, confirmAll, hid, hkv] using hs
      | some event =>
        by_cases hstc :
            (event.confirmedStaff.filter (fun id => decide (id ∉ event.pointsAwarded))).isEmpty
        · simp only [applyOp, confirmAll, if_neg hid, hkv]
          rw [if_pos hstc]
          exact hs
        · simp only [applyOp, confirmAll, hid, hkv, hstc]
          simp only [AwardInv]
          intro p hp
          simp only [if_neg hid, Bool.false_eq_true, if_false] at hp
          rw [awardLoop_events] at hp
          rcases mem_kvSet hp with hp' | hp'
          · exact hs p hp'
          · obtain ⟨k', hk'⟩ := kvGet_mem hkv
            have hev := hs (k', event) hk'
            rw [hp']
            refine ⟨?_, hev.2⟩
            rw [List.nodup_append]
            refine ⟨hev.1, hev.2.filter _, ?_⟩
            intro x hx hx'
            rcases List.mem_filter.mp hx' with ⟨_, hdec⟩
            exact (of_decide_eq_true hdec) hx

theorem awardInv_foldl {s : Store} (hs : AwardInv s) (ops : List Op) :
    AwardInv (ops.foldl applyOp s) := by
  induction ops generalizing s with
  | nil => exact hs
  | cons op rest ih => exact ih (applyOp_awardInv hs op)

theorem applyOp_subInv {s : Store} (hs : SubInv s) (op : Op) :
    SubInv (applyOp s op) := by
  cases op with
  | confirmOne eventId staffId adjId ts admin =>
    by_cases hid : eventId = "" ∨ staffId = ""
    · simpa [applyOp, confirmOne, hid] using hs
    · cases hkv : kvGet s.events ("event:" ++ eventId) with
      | none => simpa [applyOp, confirmOne, hid, hkv] using hs
      | some event =>
        cases hku : kvGet s.users ("user:" ++ staffId) with
        | none => simpa [applyOp, confirmOne, hid, hkv, hku] using hs
        | some staff =>
          by_cases hpa : staffId ∈ event.pointsAwarded
          · simpa [applyOp, confirmOne, hid, hkv, hku, hpa] using hs
          · by_cases hcs : staffId ∈ event.confirmedStaff
            · simp only [applyOp, confirmOne, hid, hkv, hku, hpa, hcs]
              simp only [SubInv]
              intro p hp
              simp only [if_neg hid, not_true_eq_false, if_false, not_false_eq_true,
                if_true] at hp
              rcases mem_kvSet hp with hp' | hp'
              · exact hs p hp'
              · obtain ⟨k', hk'⟩ := kvGet_mem hkv
                have hev := hs (k', event) hk'
                rw [hp']
                intro x hx
                rcases List.mem_append.mp hx with hx | hx
                · exact hev x hx
                · rcases List.mem_singleton.mp hx with rfl
                  exact hcs
            · simpa [applyOp, confirmOne, hid, hkv, hku, hpa, hcs] using hs
  | confirmAll eventId admin dateNow ts =>
    by_cases hid : eventId = ""
    · simpa [applyOp, confirmAll, hid] using hs
    · cases hkv : kvGet s.events ("event:" ++ eventId) with
      | none => simpa [applyOp, confirmAll, hid, hkv] using hs
      | some event =>
        by_cases hstc :
            (event.confirmedStaff.filter (fun id => decide (id ∉ event.pointsAwarded))).isEmpty
        · simp only [applyOp, confirmAll, if_neg hid, hkv]
          rw [if_pos hstc]
          exact hs
        · simp only [applyOp, confirmAll, hid, hkv, hstc]
          simp only [SubInv]
          intro p hp
          simp only [if_neg hid, Bool.false_eq_true, if_false] at hp
          rw [awardLoop_events] at hp
          rcases mem_kvSet hp with hp' | hp'
          · exact hs p hp'
          · obtain ⟨k', hk'⟩ := kvGet_mem hkv
            have hev := hs (k', event) hk'
            rw [hp']
            intro x hx
            rcases List.mem_append.mp hx with hx | hx
            · exact hev x hx
            · exact (List.mem_filter.mp hx).1

/-- C2: starting from a store whose events have duplicate-free awarded and
confirmed lists, any finite sequence of confirmOne / confirmAll requests
keeps every event's pointsAwarded duplicate-free, and a confirmOne request
for a pair already in pointsAwarded fails and changes nothing, so
repetition never double-awards a pair. -/
theorem award_nodup_invariant (s : Store) (hs : AwardInv s) :
    (∀ ops : List Op, AwardInv (ops.foldl applyOp s)) ∧
    (∀ eventId staffId adjId ts admin event,
      kvGet s.events ("event:" ++ eventId) = some event →
      staffId ∈ event.pointsAwarded →
      (∃ err, confirmOne s eventId staffId adjId ts admin = Except.error err) ∧
      applyOp s (Op.confirmOne eventId staffId adjId ts admin) = s) := by
  refine ⟨fun ops => awardInv_foldl hs ops, ?_⟩
  intro eventId staffId adjId ts admin event hkv hpa
  by_cases hid : eventId = "" ∨ staffId = ""
  · exact ⟨⟨ApiError.validation "Event ID and staff ID are required",
      by simp [confirmOne, hid]⟩, by simp [applyOp, confirmOne, hid]⟩
  · cases hku : kvGet s.users ("user:" ++ staffId) with
    | none =>
      exact ⟨⟨ApiError.notFound "Staff member not found",
        by simp [confirmOne, hid, hkv, hku]⟩,
        by simp [applyOp, confirmOne, hid, hkv, hku]⟩
    | some staff =>
      exact ⟨⟨ApiError.precondition "Points already awarded to this staff member",
        by simp [confirmOne, hid, hkv, hku, hpa]⟩,
        by simp [applyOp, confirmOne, hid, hkv, hku, hpa]⟩

/-- Witness for C2: the demo store satisfies the invariant, a concrete
request sequence with a repeated pair keeps it, and repeating the already
awarded pair A on awardedStore fails without change. -/
theorem award_nodup_invariant_witness :
    (AwardInv demoStore ∧
      AwardInv ([Op.confirmOne "e4" "A" "adj1" "t1" "admin",
        Op.confirmAll "e4" "admin" "d1" "t2",
        Op.confirmOne "e4" "A" "adj2" "t3" "admin"].foldl applyOp demoStore)) ∧
    (AwardInv awardedStore ∧
      (∃ err, confirmOne awardedStore "e3" "A" "adjX" "tX" "admin" = Except.error err) ∧
      applyOp awardedStore (Op.confirmOne "e3" "A" "adjX" "tX" "admin") = awardedStore) :=
  ⟨⟨by decide, (award_nodup_invariant demoStore (by decide)).1 _⟩,
   ⟨by decide, (award_nodup_invariant awardedStore (by decide)).2
     "e3" "A" "adjX" "tX" "admin" awardedDemoEvent (by decide) (by decide)⟩⟩

/-- C3 (amended): the containment of pointsAwarded in confirmedStaff is
preserved by every confirmOne / confirmAll request; it is not preserved by
re-closing with a different approved list (see the counterexample), since
the close handler replaces confirmedStaff without pruning pointsAwarded. -/
theorem award_subset_confirm_ops (s : Store) (hs : SubInv s) (ops : List Op) :
    SubInv (ops.foldl applyOp s) := by
  induction ops generalizing s with
  | nil => exact hs
  | cons op rest ih => exact ih _ (applyOp_subInv hs op)

/-- Witness for C3: the demo store satisfies the containment and a
concrete confirmOne-then-confirmAll sequence keeps it. -/
theorem award_subset_confirm_ops_witness :
    SubInv demoStore ∧
    SubInv ([Op.confirmOne "e4" "B" "adj1" "t1" "admin",
      Op.confirmAll "e4" "admin" "d1" "t2"].foldl applyOp demoStore) :=
  ⟨by decide, award_subset_confirm_ops demoStore (by decide) _⟩

/-- C4: a confirmOne request for an existing staff member who is not in
the event's confirmedStaff list fails with a precondition error and
persists nothing: the whole store (events, users, adjustments) is exactly
as before. -/
theorem confirmOne_not_selected_precondition (s : Store)
    (eventId staffId adjId ts admin : String) (event : Event) (staff : Staff)
    (hev : kvGet s.events ("event:" ++ eventId) = some event)
    (hst : kvGet s.users ("user:" ++ staffId) = some staff)
    (hid : ¬ (eventId = "" ∨ staffId = ""))
    (hnotsel : staffId ∉ event.confirmedStaff) :
    (∃ msg, confirmOne s eventId staffId adjId ts admin =
      Except.error (ApiError.precondition msg)) ∧
    applyOp s (Op.confirmOne eventId staffId adjId ts admin) = s := by
  by_cases hpa : staffId ∈ event.pointsAwarded
  · exact ⟨⟨"Points already awarded to this staff member",
      by simp [confirmOne, hid, hev, hst, hpa]⟩,
      by simp [applyOp, confirmOne, hid, hev, hst, hpa]⟩
  · exact ⟨⟨"Staff member was not selected for this event",
      by simp [confirmOne, hid, hev, hst, hpa, hnotsel]⟩,
      by simp [applyOp, confirmOne, hid, hev, hst, hpa, hnotsel]⟩

/-- Witness for C4: B exists but is not confirmed on awardedDemoEvent, so
confirming B is rejected with a precondition error and the store is
untouched. -/
theorem confirmOne_not_selected_precondition_witness :
    (∃ msg, confirmOne awardedStore "e3" "B" "adj9" "t9" "admin" =
      Except.error (ApiError.precondition msg)) ∧
    applyOp awardedStore (Op.confirmOne "e3" "B" "adj9" "t9" "admin") = awardedStore :=
  confirmOne_not_selected_precondition awardedStore "e3" "B" "adj9" "t9" "admin"
    awardedDemoEvent demoStaffB (by decide) (by decide) (by decide) (by decide)

/-- C6 (amended): cancelling an existing event stores it with status
cancelled and an empty signedUpStaff; every signed-up member that resolves
to a stored staff record receives an email delivery attempt when the email
channel is configured and a Telegram delivery attempt when Telegram is
connected and the record has a usable chat id; and every attempt happens
before the purge of signedUpStaff. -/
theorem cancel_event_spec (events : KV Event) (users : KV Staff) (eventId : String)
    (resendConfigured telegramConnected : Bool) (event : Event)
    (hev : kvGet events ("event:" ++ eventId) = some event) :
    ∃ events2 trace,
      cancelEventHandler events users eventId resendConfigured telegramConnected =
        Except.ok (events2, trace) ∧
      kvGet events2 ("event:" ++ eventId) =
        some { event with status := "cancelled", signedUpStaff := [] } ∧
      (∀ st ∈ users.map (fun p => p.2), Staff.id st ∈ event.signedUpStaff →
        (resendConfigured = true → CancelStep.attempt Channel.email st.id ∈ trace) ∧
        (telegramConnected = true → hasChatId st = true →
          CancelStep.attempt Channel.telegram st.id ∈ trace)) ∧
      (event.signedUpStaff = [] → trace = [CancelStep.setStatusCancelled]) ∧
      (event.signedUpStaff ≠ [] →
        ∃ attempts, trace =
          CancelStep.setStatusCancelled :: attempts ++ [CancelStep.purgeSignups] ∧
          ∀ step ∈ attempts, ∃ ch i, step = CancelStep.attempt ch i) := by
  by_cases hemp : event.signedUpStaff = []
  · have hbool : event.signedUpStaff.isEmpty = true := by rw [hemp]; rfl
    have hrun : cancelEventHandler events users eventId resendConfigured telegramConnected =
        Except.ok (kvSet events ("event:" ++ eventId) { event with status := "cancelled" },
          [CancelStep.setStatusCancelled]) := by
      simp [cancelEventHandler, hev, hbool]
    refine ⟨_, _, hrun, ?_, ?_, fun _ => rfl, fun hne => absurd hemp hne⟩
    · rw [kvGet_kvSet_self]
      rw [show event.signedUpStaff = [] from hemp]
    · intro st _ hsid
      rw [hemp] at hsid
      simp at hsid
  · have hbool : event.signedUpStaff.isEmpty = false := by
      cases hsu : event.signedUpStaff with
      | nil => exact absurd hsu hemp
      | cons a l => rfl
    have hrun : cancelEventHandler events users eventId resendConfigured telegramConnected =
        Except.ok (kvSet (kvSet events ("event:" ++ eventId)
            { event with status := "cancelled" }) ("event:" ++ eventId)
            { event with status := "cancelled", signedUpStaff := [] },
          CancelStep.setStatusCancelled ::
            ((if resendConfigured then
                ((users.map (fun p => p.2)).filter
                  (fun u => decide (Staff.id u ∈ event.signedUpStaff))).map
                  (fun st => CancelStep.attempt Channel.email st.id)
              else []) ++
             (if telegramConnected then
                (((users.map (fun p => p.2)).filter
                  (fun u => decide (Staff.id u ∈ event.signedUpStaff))).filter hasChatId).map
                  (fun st => CancelStep.attempt Channel.telegram st.id)
              else []) ++
             [CancelStep.purgeSignups])) := by
      simp [cancelEventHandler, hev, hbool]
    refine ⟨_, _, hrun, ?_, ?_, fun h => absurd h hemp, ?_⟩
    · rw [kvGet_kvSet_self]
    · intro st hst hsid
      constructor
      · intro hres
        apply List.mem_cons_of_mem
        apply List.mem_append_left
        apply List.mem_append_left
        rw [hres]
        simp only [if_true]
        exact List.mem_map.mpr ⟨st, List.mem_filter.mpr ⟨hst, by simpa using hsid⟩, rfl⟩
      · intro htel hchat
        apply List.mem_cons_of_mem
        apply List.mem_append_left
        apply List.mem_append_right
        rw [htel]
        simp only [if_true]
        exact List.mem_map.mpr
          ⟨st, List.mem_filter.mpr ⟨List.mem_filter.mpr ⟨hst, by simpa using hsid⟩, hchat⟩, rfl⟩
    · intro _
      refine ⟨(if resendConfigured then
          ((users.map (fun p => p.2)).filter
            (fun u => decide (Staff.id u ∈ event.signedUpStaff))).map
            (fun st => CancelStep.attempt Channel.email st.id)
        else []) ++
        (if telegramConnected then
          (((users.map (fun p => p.2)).filter
            (fun u => decide (Staff.id u ∈ event.signedUpStaff))).filter hasChatId).map
            (fun st => CancelStep.attempt Channel.telegram st.id)
        else []), rfl, ?_⟩
      intro step hstep
      rcases List.mem_append.mp hstep with hstep | hstep
      · split at hstep
        · rcases List.mem_map.mp hstep with ⟨st, _, hst⟩
          exact ⟨Channel.email, st.id, hst.symm⟩
        · simp at hstep
      · split at hstep
        · rcases List.mem_map.mp hstep with ⟨st, _, hst⟩
          exact ⟨Channel.telegram, st.id, hst.symm⟩
        · simp at hstep

/-- Witness for C6 (amended): cancelling the demo event with both
channels configured. -/
theorem cancel_event_spec_witness :
    ∃ events2 trace,
      cancelEventHandler cancelDemoEvents cancelDemoUsers "e6" true true =
        Except.ok (events2, trace) ∧
      kvGet events2 ("event:" ++ "e6") =
        some { cancelDemoEvent with status := "cancelled", signedUpStaff := [] } ∧
      (∀ st ∈ cancelDemoUsers.map (fun p => p.2),
        Staff.id st ∈ cancelDemoEvent.signedUpStaff →
        (true = true → CancelStep.attempt Channel.email st.id ∈ trace) ∧
        (true = true → hasChatId st = true →
          CancelStep.attempt Channel.telegram st.id ∈ trace)) ∧
      (cancelDemoEvent.signedUpStaff = [] → trace = [CancelStep.setStatusCancelled]) ∧
      (cancelDemoEvent.signedUpStaff ≠ [] →
        ∃ attempts, trace =
          CancelStep.setStatusCancelled :: attempts ++ [CancelStep.purgeSignups] ∧
          ∀ step ∈ attempts, ∃ ch i, step = CancelStep.attempt ch i) :=
  cancel_event_spec cancelDemoEvents cancelDemoUsers "e6" true true cancelDemoEvent
    (by decide)

/-- Counterexample for C6: with the email channel and Telegram both
configured, the signed-up member A (who has no chat id on file) gets an
email attempt but no Telegram attempt, so not every member of the
signed-up set receives an attempt on every configured channel. -/
theorem cancel_notify_counterexample :
    "A" ∈ cancelDemoEvent.signedUpStaff ∧
    cancelEventHandler cancelDemoEvents cancelDemoUsers "e6" true true =
      Except.ok ([("event:e6",
          { cancelDemoEvent with status := "cancelled", signedUpStaff := [] })],
        [CancelStep.setStatusCancelled, CancelStep.attempt Channel.email "A",
          CancelStep.purgeSignups]) ∧
    CancelStep.attempt Channel.telegram "A" ∉
      [CancelStep.setStatusCancelled, CancelStep.attempt Channel.email "A",
        CancelStep.purgeSignups] := by
  decide

/-- C9: updating an existing event preserves signedUpStaff,
confirmedStaff, hasBeenClosedBefore and createdAt no matter what the
request payload supplies for them, and the handler stores exactly the
merged event. -/
theorem update_preserves_frame (events : KV Event) (eventId : String)
    (patch : EventPatch) (existing : Event)
    (hev : kvGet events ("event:" ++ eventId) = some existing) :
    (mergeEvent existing patch eventId).signedUpStaff = existing.signedUpStaff ∧
    (mergeEvent existing patch eventId).confirmedStaff = existing.confirmedStaff ∧
    (mergeEvent existing patch eventId).hasBeenClosedBefore = existing.hasBeenClosedBefore ∧
    (mergeEvent existing patch eventId).createdAt = existing.createdAt ∧
    ∃ r, updateEventHandler events eventId patch = Except.ok r ∧
      kvGet r.events ("event:" ++ eventId) = some (mergeEvent existing patch eventId) := by
  refine ⟨rfl, rfl, rfl, rfl, ?_⟩
  by_cases hdraft : (if (mergeEvent existing patch eventId).status = "" then "open"
      else (mergeEvent existing patch eventId).status) = "draft"
  · have hrun : updateEventHandler events eventId patch = Except.ok
        ⟨kvSet events ("event:" ++ eventId) (mergeEvent existing patch eventId), [], []⟩ := by
      simp [updateEventHandler, hev, hdraft]
    exact ⟨_, hrun, kvGet_kvSet_self _ _ _⟩
  · have hrun : updateEventHandler events eventId patch = Except.ok
        ⟨kvSet events ("event:" ++ eventId) (mergeEvent existing patch eventId),
         diffChanges existing (mergeEvent existing patch eventId),
         if (diffChanges existing (mergeEvent existing patch eventId)).isEmpty then []
         else staffToNotify (if (mergeEvent existing patch eventId).status = "" then "open"
           else (mergeEvent existing patch eventId).status)
           (mergeEvent existing patch eventId)⟩ := by
      simp [updateEventHandler, hev, hdraft]
    exact ⟨_, hrun, kvGet_kvSet_self _ _ _⟩

/-- Witness for C9: a payload that tries to overwrite the four protected
fields leaves them unchanged on the stored event. -/
theorem update_preserves_frame_witness :
    (mergeEvent signupDemoEvent framePatch "e9").signedUpStaff =
      signupDemoEvent.signedUpStaff ∧
    (mergeEvent signupDemoEvent framePatch "e9").confirmedStaff =
      signupDemoEvent.confirmedStaff ∧
    (mergeEvent signupDemoEvent framePatch "e9").hasBeenClosedBefore =
      signupDemoEvent.hasBeenClosedBefore ∧
    (mergeEvent signupDemoEvent framePatch "e9").createdAt = signupDemoEvent.createdAt ∧
    ∃ r, updateEventHandler signupDemoEvents "e9" framePatch = Except.ok r ∧
      kvGet r.events ("event:" ++ "e9") = some (mergeEvent signupDemoEvent framePatch "e9") :=
  update_preserves_frame signupDemoEvents "e9" framePatch signupDemoEvent (by decide)

theorem mem_ite_singleton {α : Type} {c : Prop} [Decidable c] {x a : α} :
    (x ∈ if c then [a] else []) ↔ c ∧ x = a := by
  split <;> simp [*]

/-- C8: saving an edit whose field diff is empty notifies nobody even
though the event is stored; when the diff is non-empty the recipients are
exactly signedUpStaff for an open event, exactly confirmedStaff for a
closed event, and nobody for any other (non-blank) status; and the diff
holds exactly one change line per differing compared field, description
and notes being reported by a content-free updated marker. -/
theorem update_notification_spec (events : KV Event) (eventId : String)
    (patch : EventPatch) (existing : Event)
    (hev : kvGet events ("event:" ++ eventId) = some existing) :
    (diffChanges existing (mergeEvent existing patch eventId) = [] →
      updateEventHandler events eventId patch = Except.ok
        ⟨kvSet events ("event:" ++ eventId) (mergeEvent existing patch eventId), [], []⟩) ∧
    (diffChanges existing (mergeEvent existing patch eventId) ≠ [] →
      ((mergeEvent existing patch eventId).status = "open" →
        updateEventHandler events eventId patch = Except.ok
          ⟨kvSet events ("event:" ++ eventId) (mergeEvent existing patch eventId),
           diffChanges existing (mergeEvent existing patch eventId),
           (mergeEvent existing patch eventId).signedUpStaff⟩) ∧
      ((mergeEvent existing patch eventId).status = "closed" →
        updateEventHandler events eventId patch = Except.ok
          ⟨kvSet events ("event:" ++ eventId) (mergeEvent existing patch eventId),
           diffChanges existing (mergeEvent existing patch eventId),
           (mergeEvent existing patch eventId).confirmedStaff⟩) ∧
      ((mergeEvent existing patch eventId).status ≠ "open" →
        (mergeEvent existing patch eventId).status ≠ "closed" →
        (mergeEvent existing patch eventId).status ≠ "" →
        ∃ r, updateEventHandler events eventId patch = Except.ok r ∧
          r.recipients = [])) ∧
    (∀ a b, ChangeLine.name a b ∈ diffChanges existing (mergeEvent existing patch eventId) ↔
      existing.name ≠ (mergeEvent existing patch eventId).name ∧
        a = existing.name ∧ b = (mergeEvent existing patch eventId).name) ∧
    (∀ a b, ChangeLine.date a b ∈ diffChanges existing (mergeEvent existing patch eventId) ↔
      existing.date ≠ (mergeEvent existing patch eventId).date ∧
        a = existing.date ∧ b = (mergeEvent existing patch eventId).date) ∧
    (∀ a b, ChangeLine.time a b ∈ diffChanges existing (mergeEvent existing patch eventId) ↔
      existing.time ≠ (mergeEvent existing patch eventId).time ∧
        a = existing.time ∧ b = (mergeEvent existing patch eventId).time) ∧
    (∀ a b, ChangeLine.location a b ∈
        diffChanges existing (mergeEvent existing patch eventId) ↔
      existing.location ≠ (mergeEvent existing patch eventId).location ∧
        a = existing.location ∧ b = (mergeEvent existing patch eventId).location) ∧
    (∀ a b, ChangeLine.duration a b ∈
        diffChanges existing (mergeEvent existing patch eventId) ↔
      existing.duration ≠ (mergeEvent existing patch eventId).duration ∧
        a = existing.duration ∧ b = (mergeEvent existing patch eventId).duration) ∧
    (∀ a b, ChangeLine.points a b ∈
        diffChanges existing (mergeEvent existing patch eventId) ↔
      existing.points ≠ (mergeEvent existing patch eventId).points ∧
        a = existing.points ∧ b = (mergeEvent existing patch eventId).points) ∧
    (∀ a b, ChangeLine.requiredLevel a b ∈
        diffChanges existing (mergeEvent existing patch eventId) ↔
      existing.requiredLevel ≠ (mergeEvent existing patch eventId).requiredLevel ∧
        a = existing.requiredLevel ∧ b = (mergeEvent existing patch eventId).requiredLevel) ∧
    (ChangeLine.descriptionUpdated ∈
        diffChanges existing (mergeEvent existing patch eventId) ↔
      existing.description ≠ (mergeEvent existing patch eventId).description) ∧
    (ChangeLine.notesUpdated ∈ diffChanges existing (mergeEvent existing patch eventId) ↔
      existing.notes ≠ (mergeEvent existing patch eventId).notes) := by
  refine ⟨?_, ?_, ?_, ?_, ?_, ?_, ?_, ?_, ?_, ?_, ?_⟩
  · intro hchanges
    by_cases hdraft : (if (mergeEvent existing patch eventId).status = "" then "open"
        else (mergeEvent existing patch eventId).status) = "draft"
    · simp [updateEventHandler, hev, hdraft]
    · simp [updateEventHandler, hev, hdraft, hchanges]
  · intro hchanges
    have hbool : (diffChanges existing (mergeEvent existing patch eventId)).isEmpty = false := by
      cases hd : diffChanges existing (mergeEvent existing patch eventId) with
      | nil => exact absurd hd hchanges
      | cons a l => rfl
    refine ⟨?_, ?_, ?_⟩
    · intro hopen
      simp [updateEventHandler, hev, hopen, hbool, staffToNotify]
    · intro hclosed
      simp [updateEventHandler, hev, hclosed, hbool, staffToNotify]
    · intro hopen hclosed hblank
      by_cases hdraft : (mergeEvent existing patch eventId).status = "draft"
      · have hrun : updateEventHandler events eventId patch = Except.ok
            ⟨kvSet events ("event:" ++ eventId) (mergeEvent existing patch eventId),
             [], []⟩ := by
          simp [updateEventHandler, hev, hdraft, hblank]
        exact ⟨_, hrun, rfl⟩
      · have hrun : updateEventHandler events eventId patch = Except.ok
            ⟨kvSet events ("event:" ++ eventId) (mergeEvent existing patch eventId),
             diffChanges existing (mergeEvent existing patch eventId), []⟩ := by
          simp [updateEventHandler, hev, hdraft, hblank, hbool, staffToNotify,
            hopen, hclosed]
        exact ⟨_, hrun, rfl⟩
  · intro a b
    simp [diffChanges, List.mem_append, mem_ite_singleton]
  · intro a b
    simp [diffChanges, List.mem_append, mem_ite_singleton]
  · intro a b
    simp [diffChanges, List.mem_append, mem_ite_singleton]
  · intro a b
    simp [diffChanges, List.mem_append, mem_ite_singleton]
  · intro a b
    simp [diffChanges, List.mem_append, mem_ite_singleton]
  · intro a b
    simp [diffChanges, List.mem_append, mem_ite_singleton]
  · intro a b
    simp [diffChanges, List.mem_append, mem_ite_singleton]
  · simp [diffChanges, List.mem_append, mem_ite_singleton]
  · simp [diffChanges, List.mem_append, mem_ite_singleton]

/-- Witness for C8: editing only the location of the open demo event
notifies exactly its signed-up staff with the single location change line,
and an empty edit notifies nobody. -/
theorem update_notification_spec_witness :
    (diffChanges signupDemoEvent (mergeEvent signupDemoEvent locationPatch "e9") ≠ [] ∧
      (mergeEvent signupDemoEvent locationPatch "e9").status = "open" ∧
      updateEventHandler signupDemoEvents "e9" locationPatch = Except.ok
        ⟨kvSet signupDemoEvents ("event:" ++ "e9")
          (mergeEvent signupDemoEvent locationPatch "e9"),
         diffChanges signupDemoEvent (mergeEvent signupDemoEvent locationPatch "e9"),
         (mergeEvent signupDemoEvent locationPatch "e9").signedUpStaff⟩) ∧
    (diffChanges signupDemoEvent (mergeEvent signupDemoEvent emptyPatch "e9") = [] ∧
      updateEventHandler signupDemoEvents "e9" emptyPatch = Except.ok
        ⟨kvSet signupDemoEvents ("event:" ++ "e9")
          (mergeEvent signupDemoEvent emptyPatch "e9"), [], []⟩) :=
  ⟨⟨by decide, by decide,
    ((update_notification_spec signupDemoEvents "e9" locationPatch signupDemoEvent
      (by decide)).2.1 (by decide)).1 (by decide)⟩,
   ⟨by decide,
    (update_notification_spec signupDemoEvents "e9" emptyPatch signupDemoEvent
      (by decide)).1 (by decide)⟩⟩

end EventHub
